import Mathlib

/-!
Verification of the `agent-parser-ro` user-agent classifier (`src/lib.rs`).

The classifier runs three detectors (OS, browser, device) over one input
string.  Each detector scans the input with two case-insensitive regexes,
each a plain alternation of literal tokens, in order (specific group first,
then generic), and maps the lower-cased matched token to a category through
a fixed table, stopping as soon as the accumulated result is non-`Unknown`.

Embedding notes:
* A regex `(?i)(t1|t2|...)` over literal tokens is modelled by its
  leftmost-first match semantics (the semantics of the Rust `regex` crate):
  the winning token is the one whose occurrence starts at the smallest
  position in the input; the alternation order breaks ties among tokens
  matching at the same start position.
* Two models of case-insensitivity are given.  The ASCII model
  (`foldChar`, `findTok`, `parse`) folds only A–Z and identifies the
  looked-up text with the pattern token; it agrees with the program on
  ASCII inputs.  The Unicode model (`foldNat`, `lowerNat`, `findMatchU`,
  `parseU`) is faithful to the crate's Unicode simple case folding against
  the all-ASCII tokens — the only non-ASCII code points that simple-fold
  into ASCII are U+017F (folds to s) and U+212A (folds to k) — and keys
  the table lookup by the lowercased matched text of the input
  (`caps.get(1).unwrap().as_str().to_lowercase()`, lib.rs line 169), where
  U+017F stays itself while U+212A lowercases to k.  The two models
  coincide on ASCII inputs and differ exactly where folding does.
* `caps.get(1).unwrap()` always succeeds in the source because group 1
  spans the whole alternation; `parseChecked` models the unwrap as an
  `Option` so that the no-panic claim is a provable statement.
* The raw, case-sensitive `ua.contains(..)` checks of the Desktop fallback
  are modelled by exact code-point substring search, without folding.
-/

namespace AgentParser

inductive Browser where
  | Chrome
  | Safari
  | Firefox
  | Edge
  | InternetExplorer
  | Opera
  | Dolphin
  | Brave
  | Puffin
  | Maxthon
  | Mercury
  | Silk
  | Vivaldi
  | Yandex
  | DuckDuckGo
  | Tor
  | Electron
  | PhantomJS
  | WebView
  | Facebook
  | Instagram
  | Twitter
  | Snapchat
  | Googlebot
  | Bingbot
  | Yahoo
  | Baidu
  | UCBrowser
  | SamsungBrowser
  | OculusBrowser
  | Unknown
deriving DecidableEq

inductive OperatingSystem where
  | Windows
  | WindowsPhone
  | MacOS
  | IOS
  | IPadOS
  | Android
  | Linux
  | Ubuntu
  | Fedora
  | Debian
  | ChromeOS
  | BlackBerry
  | Symbian
  | WebOS
  | Bada
  | Tizen
  | Nintendo
  | PlayStation
  | Xbox
  | Wii
  | FreeBSD
  | OpenBSD
  | Solaris
  | AIX
  | HPUX
  | HarmonyOS
  | KaiOS
  | Unknown
deriving DecidableEq

inductive DeviceType where
  | Mobile
  | Tablet
  | Desktop
  | Game
  | TV
  | Smartwatch
  | VRHeadset
  | CarSystem
  | Bot
  | Unknown
deriving DecidableEq

structure UserAgentInfo where
  os : OperatingSystem
  browser : Browser
  device_type : DeviceType
deriving DecidableEq

/-- ASCII case folding of one code point (A–Z folds to a–z): the folding
of the ASCII model.  It agrees with the Unicode simple folding of the
source's `(?i)` regexes on ASCII code points but not on U+017F/U+212A;
the Unicode-faithful folding is `foldNat` below. -/
def foldChar (c : Char) : Nat :=
  if 65 ≤ c.toNat && c.toNat ≤ 90 then c.toNat + 32 else c.toNat

/-- The input as a case-folded list of code points. -/
def foldStr (s : String) : List Nat :=
  s.data.map foldChar

/-- The input as a raw (case-sensitive) list of code points. -/
def rawStr (s : String) : List Nat :=
  s.data.map Char.toNat

/-- Does the pattern `p` occur at the head of `cs`? -/
def tokAt : List Nat → List Nat → Bool
  | [], _ => true
  | _ :: _, [] => false
  | p :: ps, c :: cs => p == c && tokAt ps cs

/-- First token of the alternation (in listed order) that matches at the
head of `cs` — the alternation-order tie-break of leftmost-first. -/
def firstTok : List String → List Nat → Option String
  | [], _ => none
  | t :: ts, cs => if tokAt (foldStr t) cs then some t else firstTok ts cs

/-- Leftmost-first match of an alternation of literal tokens: scan the
start positions left to right, at each one try the tokens in listed
order. -/
def scanTok (toks : List String) : List Nat → Option String
  | [] => firstTok toks []
  | c :: cs =>
    match firstTok toks (c :: cs) with
    | some t => some t
    | none => scanTok toks cs

/-- `reg.captures(ua)` for `reg = (?i)(t1|...|tn)` in the ASCII model,
returning the matched pattern token — equal to the lowercased matched
text whenever the input is ASCII.  The Unicode-faithful variant returning
the matched text itself is `findMatchU` below. -/
def findTok (toks : List String) (ua : String) : Option String :=
  scanTok toks (foldStr ua)

/-- Does the pattern occur anywhere in `cs`? -/
def hasTok : List Nat → List Nat → Bool
  | p, [] => tokAt p []
  | p, c :: cs => tokAt p (c :: cs) || hasTok p cs

/-- Case-insensitive substring test (models `(?i)` matching one token). -/
def containsFold (pat ua : String) : Bool :=
  hasTok (foldStr pat) (foldStr ua)

/-- Case-sensitive substring test (models Rust `str::contains`). -/
def containsRaw (pat ua : String) : Bool :=
  hasTok (rawStr pat) (rawStr ua)

/-- `OS_REGEX[0]`, the specific OS alternation, in source order. -/
def osSpecTokens : List String :=
  ["windows phone", "mac os x", "iphone os", "ipad; cpu os", "android",
   "ubuntu", "fedora", "debian", "cros", "crkey", "chrome os", "blackberry",
   "symbian", "webos", "bada", "tizen", "nintendo", "playstation", "xbox",
   "wii", "freebsd", "openbsd", "solaris", "aix", "hp-ux", "harmonyos",
   "kaios"]

/-- `OS_REGEX[1]`, the generic OS alternation. -/
def osGenTokens : List String :=
  ["windows", "linux"]

/-- `BROWSER_REGEX[0]`, the specific browser alternation, in source order. -/
def browserSpecTokens : List String :=
  ["ucbrowser", "samsungbrowser", "oculusbrowser", "ucweb", "crios",
   "headlesschrome", "mobile safari", "fxios", "edge", "edg", "edga",
   "edgios", "msie", "trident", "opera", "opr", "dolphin", "brave",
   "puffin", "maxthon", "mercury", "nokiabrowser", "silk", "vivaldi",
   "yabrowser", "duckduckgo", "tor", "electron", "phantomjs", "wv",
   "fban", "fbav", "instagram", "twitter", "snapchat", "googlebot",
   "bingbot", "yahoo! slurp", "baiduspider"]

/-- `BROWSER_REGEX[1]`, the generic browser alternation. -/
def browserGenTokens : List String :=
  ["chrome", "safari", "firefox"]

/-- `DEVICE_REGEX[0]`, the specific device alternation, in source order. -/
def deviceSpecTokens : List String :=
  ["kfmawi", "ipod", "windows phone", "blackberry", "symbian", "ipad",
   "tablet", "kindle", "playbook", "nexus", "sm-t", "sm-x", "sm-s", "gt-p",
   "playstation", "ps4", "ps5", "xbox", "nintendo", "wii", "smart-tv",
   "tv", "appletv", "roku", "chromecast", "crkey", "fire tv", "watch",
   "apple watch", "vive", "oculus", "tesla", "android auto", "carplay",
   "googlebot", "bingbot", "slurp", "baiduspider", "facebookexternalhit",
   "twitterbot", "monitoring", "scraper", "yandexbot"]

/-- `DEVICE_REGEX[1]`, the generic device alternation. -/
def deviceGenTokens : List String :=
  ["android", "iphone", "x11", "x86_64"]

/-- The OS token→category match of `parse` (lib.rs lines 170–199). -/
def osTable (t : String) : OperatingSystem :=
  match t with
  | "windows" => .Windows
  | "windows phone" => .WindowsPhone
  | "mac os x" => .MacOS
  | "iphone os" => .IOS
  | "ipad; cpu os" => .IPadOS
  | "android" => .Android
  | "linux" => .Linux
  | "ubuntu" => .Ubuntu
  | "fedora" => .Fedora
  | "debian" => .Debian
  | "chrome os" | "cros" | "crkey" => .ChromeOS
  | "blackberry" => .BlackBerry
  | "symbian" => .Symbian
  | "webos" => .WebOS
  | "bada" => .Bada
  | "tizen" => .Tizen
  | "nintendo" => .Nintendo
  | "playstation" => .PlayStation
  | "xbox" => .Xbox
  | "wii" => .Wii
  | "freebsd" => .FreeBSD
  | "openbsd" => .OpenBSD
  | "solaris" => .Solaris
  | "aix" => .AIX
  | "hp-ux" => .HPUX
  | "harmonyos" => .HarmonyOS
  | "kaios" => .KaiOS
  | _ => .Unknown

/-- The browser token→category match of `parse` (lib.rs lines 210–242).
Note `"nokiabrowser"` is in the regex but has no arm, so it falls to the
default `Unknown`. -/
def browserTable (t : String) : Browser :=
  match t with
  | "chrome" | "headlesschrome" | "crios" => .Chrome
  | "safari" | "mobile safari" => .Safari
  | "firefox" | "fxios" => .Firefox
  | "edge" | "edg" | "edga" | "edgios" => .Edge
  | "msie" | "trident" => .InternetExplorer
  | "opera" | "opr" => .Opera
  | "ucbrowser" | "ucweb" => .UCBrowser
  | "samsungbrowser" => .SamsungBrowser
  | "oculusbrowser" => .OculusBrowser
  | "dolphin" => .Dolphin
  | "brave" => .Brave
  | "puffin" => .Puffin
  | "maxthon" => .Maxthon
  | "mercury" => .Mercury
  | "silk" => .Silk
  | "vivaldi" => .Vivaldi
  | "yabrowser" => .Yandex
  | "duckduckgo" => .DuckDuckGo
  | "tor" => .Tor
  | "electron" => .Electron
  | "phantomjs" => .PhantomJS
  | "wv" => .WebView
  | "fban" | "fbav" => .Facebook
  | "instagram" => .Instagram
  | "twitter" => .Twitter
  | "snapchat" => .Snapchat
  | "googlebot" => .Googlebot
  | "bingbot" => .Bingbot
  | "yahoo! slurp" => .Yahoo
  | "baiduspider" => .Baidu
  | _ => .Unknown

/-- The device token→category match of `parse` (lib.rs lines 252–277). -/
def deviceTable (t : String) : DeviceType :=
  match t with
  | "x11" | "x86_64" => .Desktop
  | "iphone" | "ipod" | "android" | "windows phone" | "blackberry"
  | "sm-s" | "symbian" => .Mobile
  | "tablet" | "kindle" | "playbook" | "nexus" | "gt-p" | "sm-t"
  | "sm-x" | "ipad" | "kfmawi" => .Tablet
  | "playstation" | "ps4" | "ps5" | "xbox" | "nintendo" | "wii" => .Game
  | "smart-tv" | "tv" | "appletv" | "roku" | "chromecast" | "crkey"
  | "fire tv" => .TV
  | "watch" | "apple watch" => .Smartwatch
  | "vive" | "oculus" => .VRHeadset
  | "tesla" | "android auto" | "carplay" => .CarSystem
  | "googlebot" | "bingbot" | "slurp" | "baiduspider"
  | "facebookexternalhit" | "twitterbot" | "yandexbot" | "monitoring"
  | "scraper" => .Bot
  | _ => .Unknown

/-- One detector loop of `parse`: start from `unk`, run the specific regex
then the generic one, keep the table image of the match, and stop as soon
as the accumulated value is non-`unk` (`if os != Unknown { break; }` —
whether the break test sits inside or after the `if let`, the resulting
function is the same, since the loop has exactly two iterations). -/
def phase {α : Type} [DecidableEq α] (spec gen : List String)
    (table : String → α) (unk : α) (ua : String) : α :=
  let r1 := match findTok spec ua with
    | some m => table m
    | none => unk
  if r1 = unk then
    match findTok gen ua with
    | some m => table m
    | none => r1
  else r1

/-- OS detector (lib.rs lines 167–204). -/
def osDetect (ua : String) : OperatingSystem :=
  phase osSpecTokens osGenTokens osTable OperatingSystem.Unknown ua

/-- Browser detector (lib.rs lines 207–247). -/
def browserDetect (ua : String) : Browser :=
  phase browserSpecTokens browserGenTokens browserTable Browser.Unknown ua

/-- Device detector before the Desktop fallback (lib.rs lines 249–282). -/
def deviceGroups (ua : String) : DeviceType :=
  phase deviceSpecTokens deviceGenTokens deviceTable DeviceType.Unknown ua

/-- The case-sensitive Desktop fallback condition (lib.rs line 284). -/
def desktopFallback (ua : String) : Bool :=
  containsRaw "Windows" ua || containsRaw "Macintosh" ua ||
    containsRaw "Linux" ua

/-- Device detector including the Desktop fallback (lib.rs 249–287). -/
def deviceDetect (ua : String) : DeviceType :=
  let d := deviceGroups ua
  if d = DeviceType.Unknown then
    if desktopFallback ua then DeviceType.Desktop else d
  else d

/-- `UserAgentParser::parse` (lib.rs lines 132–293). -/
def parse (ua : String) : UserAgentInfo :=
  { os := osDetect ua
    browser := browserDetect ua
    device_type := deviceDetect ua }

/-- `reg.captures(ua)` together with its group 1: the outer `Option` is
whether the regex matched, the inner one whether group 1 participated.
Group 1 encloses the whole alternation, so it participates in every
match. -/
def capG1 (toks : List String) (ua : String) : Option (Option String) :=
  (findTok toks ua).map some

/-- One detector loop with the `caps.get(1).unwrap()` modelled as fallible:
an inner `none` (group 1 absent) would be a panic, returned as `none`. -/
def phaseChecked {α : Type} [DecidableEq α] (spec gen : List String)
    (table : String → α) (unk : α) (ua : String) : Option α :=
  let r1 : Option α := match capG1 spec ua with
    | none => some unk
    | some g =>
      match g with
      | none => none
      | some m => some (table m)
  match r1 with
  | none => none
  | some v =>
    if v = unk then
      match capG1 gen ua with
      | none => some v
      | some g =>
        match g with
        | none => none
        | some m => some (table m)
    else some v

/-- `parse` with every capture-group unwrap modelled as fallible; `none`
means some unwrap would have panicked. -/
def parseChecked (ua : String) : Option UserAgentInfo :=
  match phaseChecked osSpecTokens osGenTokens osTable
          OperatingSystem.Unknown ua,
        phaseChecked browserSpecTokens browserGenTokens browserTable
          Browser.Unknown ua,
        phaseChecked deviceSpecTokens deviceGenTokens deviceTable
          DeviceType.Unknown ua with
  | some o, some b, some d =>
    some { os := o, browser := b,
           device_type :=
             if d = DeviceType.Unknown then
               if desktopFallback ua then DeviceType.Desktop else d
             else d }
  | _, _, _ => none

/-- Unicode simple case folding of a code point against ASCII patterns,
as used by the `regex` crate's `(?i)`: ASCII A–Z fold to a–z, and the
only two non-ASCII code points that simple-fold into ASCII are U+017F
(ſ, 383 → s, 115) and U+212A (KELVIN SIGN, 8490 → k, 107); every other
code point is left unchanged, which is faithful for matching against the
parser's all-ASCII tokens. -/
def foldNat (n : Nat) : Nat :=
  if 65 ≤ n && n ≤ 90 then n + 32
  else if n = 383 then 115
  else if n = 8490 then 107
  else n

/-- `char::to_lowercase` on the code points a matched text can contain:
ASCII A–Z lower to a–z and U+212A lowers to k, but U+017F (ſ) is already
lowercase and stays itself — this is exactly where lowercasing differs
from folding. -/
def lowerNat (n : Nat) : Nat :=
  if 65 ≤ n && n ≤ 90 then n + 32
  else if n = 8490 then 107
  else n

/-- Rebuild a string from code points. -/
def cpsToString (l : List Nat) : String :=
  ⟨l.map Char.ofNat⟩

/-- First token of the alternation (in listed order) matching at the head
of `cs` under Unicode simple folding, returning the matched text (the
span of input code points it covers).  The tokens are lowercase ASCII,
i.e. already case-folded. -/
def firstTokU : List String → List Nat → Option (List Nat)
  | [], _ => none
  | t :: ts, cs =>
    if tokAt (rawStr t) (cs.map foldNat) then
      some (List.take (rawStr t).length cs)
    else firstTokU ts cs

/-- Leftmost-first match under Unicode simple folding, returning the
matched text. -/
def scanTokU (toks : List String) : List Nat → Option (List Nat)
  | [] => firstTokU toks []
  | c :: cs =>
    match firstTokU toks (c :: cs) with
    | some m => some m
    | none => scanTokU toks cs

/-- `reg.captures(ua)` under Unicode simple folding: the matched text of
group 1, as code points of the input. -/
def findMatchU (toks : List String) (ua : String) : Option (List Nat) :=
  scanTokU toks (rawStr ua)

/-- Case-insensitive substring test under Unicode simple folding. -/
def containsFoldU (pat ua : String) : Bool :=
  hasTok (rawStr pat) ((rawStr ua).map foldNat)

/-- `caps.get(1).unwrap().as_str().to_lowercase()` — the string the
token→category table is keyed by (lib.rs line 169). -/
def lookupU (m : List Nat) : String :=
  cpsToString (m.map lowerNat)

/-- One detector loop of `parse` under the Unicode-faithful model: the
table lookup uses the lowercased matched text, not the pattern token. -/
def phaseU {α : Type} [DecidableEq α] (spec gen : List String)
    (table : String → α) (unk : α) (ua : String) : α :=
  let r1 := match findMatchU spec ua with
    | some m => table (lookupU m)
    | none => unk
  if r1 = unk then
    match findMatchU gen ua with
    | some m => table (lookupU m)
    | none => r1
  else r1

/-- OS detector under the Unicode-faithful model. -/
def osDetectU (ua : String) : OperatingSystem :=
  phaseU osSpecTokens osGenTokens osTable OperatingSystem.Unknown ua

/-- Browser detector under the Unicode-faithful model. -/
def browserDetectU (ua : String) : Browser :=
  phaseU browserSpecTokens browserGenTokens browserTable Browser.Unknown ua

/-- Device detector before the Desktop fallback, Unicode-faithful model. -/
def deviceGroupsU (ua : String) : DeviceType :=
  phaseU deviceSpecTokens deviceGenTokens deviceTable DeviceType.Unknown ua

/-- Device detector including the Desktop fallback, Unicode-faithful
model (the fallback is case-sensitive raw `contains` either way). -/
def deviceDetectU (ua : String) : DeviceType :=
  let d := deviceGroupsU ua
  if d = DeviceType.Unknown then
    if desktopFallback ua then DeviceType.Desktop else d
  else d

/-- `UserAgentParser::parse` under the Unicode-faithful match model. -/
def parseU (ua : String) : UserAgentInfo :=
  { os := osDetectU ua
    browser := browserDetectU ua
    device_type := deviceDetectU ua }

end AgentParser

namespace AgentParser

theorem firstTok_mem {toks : List String} {cs : List Nat} {t : String}
    (h : firstTok toks cs = some t) : t ∈ toks := by
  induction toks with
  | nil => simp [firstTok] at h
  | cons u us ih =>
    unfold firstTok at h
    split at h
    · cases h; exact List.mem_cons_self _ _
    · exact List.mem_cons_of_mem _ (ih h)

theorem scanTok_mem {toks : List String} {cs : List Nat} {t : String}
    (h : scanTok toks cs = some t) : t ∈ toks := by
  induction cs with
  | nil => unfold scanTok at h; exact firstTok_mem h
  | cons c cs ih =>
    unfold scanTok at h
    split at h
    · next u heq => cases h; exact firstTok_mem heq
    · exact ih h

theorem findTok_mem {toks : List String} {ua : String} {t : String}
    (h : findTok toks ua = some t) : t ∈ toks :=
  scanTok_mem h

theorem firstTok_isSome {toks : List String} {cs : List Nat} {t : String}
    (hmem : t ∈ toks) (h : tokAt (foldStr t) cs = true) :
    ∃ u, firstTok toks cs = some u := by
  induction toks with
  | nil => cases hmem
  | cons v vs ih =>
    by_cases hv : tokAt (foldStr v) cs = true
    · exact ⟨v, by simp [firstTok, hv]⟩
    · rcases List.mem_cons.mp hmem with rfl | hmem'
      · exact absurd h hv
      · obtain ⟨u, hu⟩ := ih hmem'
        exact ⟨u, by simp [firstTok, hv, hu]⟩

theorem scanTok_isSome {toks : List String} {cs : List Nat} {t : String}
    (hmem : t ∈ toks) (h : hasTok (foldStr t) cs = true) :
    ∃ u, scanTok toks cs = some u := by
  induction cs with
  | nil =>
    unfold hasTok at h
    obtain ⟨u, hu⟩ := firstTok_isSome hmem h
    exact ⟨u, by unfold scanTok; exact hu⟩
  | cons c cs ih =>
    unfold hasTok at h
    rcases Bool.or_eq_true_iff.mp h with h1 | h2
    · obtain ⟨u, hu⟩ := firstTok_isSome hmem h1
      exact ⟨u, by unfold scanTok; simp [hu]⟩
    · obtain ⟨u, hu⟩ := ih h2
      cases hft : firstTok toks (c :: cs) with
      | some v => exact ⟨v, by unfold scanTok; simp [hft]⟩
      | none => exact ⟨u, by unfold scanTok; simp [hft, hu]⟩

theorem findTok_isSome {toks : List String} {ua : String} {t : String}
    (hmem : t ∈ toks) (h : containsFold t ua = true) :
    ∃ u, findTok toks ua = some u :=
  scanTok_isSome hmem h

theorem phase_eq {α : Type} [DecidableEq α] (spec gen : List String)
    (table : String → α) (unk : α) (ua : String) :
    phase spec gen table unk ua =
      match findTok spec ua with
      | some m =>
        if table m = unk then
          match findTok gen ua with
          | some g => table g
          | none => unk
        else table m
      | none =>
        match findTok gen ua with
        | some g => table g
        | none => unk := by
  unfold phase
  cases h1 : findTok spec ua with
  | none => simp
  | some m =>
    by_cases hm : table m = unk
    · cases h2 : findTok gen ua <;> simp [hm]
    · simp [hm]

theorem phaseChecked_eq {α : Type} [DecidableEq α] (spec gen : List String)
    (table : String → α) (unk : α) (ua : String) :
    phaseChecked spec gen table unk ua = some (phase spec gen table unk ua) := by
  unfold phaseChecked phase capG1
  cases h1 : findTok spec ua with
  | none =>
    simp only [Option.map_none']
    cases h2 : findTok gen ua <;> simp
  | some m =>
    simp only [Option.map_some']
    by_cases hm : table m = unk
    · simp only [hm, if_pos rfl]
      cases h2 : findTok gen ua <;> simp [hm]
    · simp [hm]

theorem findTok_congr {toks : List String} {s t : String}
    (h : foldStr s = foldStr t) : findTok toks s = findTok toks t := by
  unfold findTok
  rw [h]

end AgentParser

namespace AgentParser

/-- C7: `parse` is deterministic and referentially transparent — it is a
pure function of the input string, so two evaluations on the same string
yield identical results, with no dependence on call history. -/
theorem parse_deterministic : ∀ ua : String, parse ua = parse ua :=
  fun _ => rfl

/-- C8: the literal Chrome-on-Windows user agent of the spec's example
scenario is classified as `(Windows, Chrome, Desktop)`. -/
theorem parse_chrome_windows_example :
    parse "Mozilla/5.0 (Windows NT 10.0; Win64; x64) AppleWebKit/537.36 (KHTML, like Gecko) Chrome/91.0.4472.124 Safari/537.36" =
      { os := OperatingSystem.Windows, browser := Browser.Chrome,
        device_type := DeviceType.Desktop } := by
  decide

/-- C10: token matching is unanchored substring search, so the specific OS
token `"cros"` matches inside the word `"Microsoft"`: the input
`"Microsoft Windows"` (which contains both `"Microsoft"` and `"Windows"`)
is classified as `ChromeOS`, not `Windows`. -/
theorem cros_matches_inside_microsoft :
    containsFold "microsoft" "Microsoft Windows" = true ∧
    containsFold "windows" "Microsoft Windows" = true ∧
    findTok osSpecTokens "Microsoft Windows" = some "cros" ∧
    (parse "Microsoft Windows").os = OperatingSystem.ChromeOS ∧
    OperatingSystem.ChromeOS ≠ OperatingSystem.Windows := by
  refine ⟨by decide, by decide, by decide, by decide, by decide⟩

/-- C4: the device detector yields the token-group result whenever that is
non-`Unknown`; only when both device token groups produced `Unknown` does
the case-sensitive Desktop fallback apply, classifying as `Desktop`
exactly when the raw input contains `"Windows"`, `"Macintosh"` or
`"Linux"` with that exact capitalization.  An input whose only hint is a
lower-case `"windows"` stays `Unknown`, and the fallback never overrides a
non-`Unknown` group result (e.g. `"iPad Windows"` stays `Tablet`). -/
theorem device_desktop_fallback :
    (∀ ua : String,
      (parse ua).device_type =
        if deviceGroups ua = DeviceType.Unknown then
          if desktopFallback ua then DeviceType.Desktop else DeviceType.Unknown
        else deviceGroups ua) ∧
    deviceGroups "windows nt" = DeviceType.Unknown ∧
    (parse "windows nt").device_type = DeviceType.Unknown ∧
    (parse "Windows nt").device_type = DeviceType.Desktop ∧
    (parse "iPad Windows").device_type = DeviceType.Tablet := by
  refine ⟨?_, by decide, by decide, by decide, by decide⟩
  intro ua
  show deviceDetect ua = _
  unfold deviceDetect
  by_cases hd : deviceGroups ua = DeviceType.Unknown <;> simp [hd]

/-- C5: `parse` is total and panic-free: with every capture-group unwrap
modelled as fallible, `parseChecked` still returns `some` of the total
result for every input string (the unwraps cannot fail because capture
group 1 spans each whole pattern), and the empty string yields the
all-`Unknown` triple. -/
theorem parse_total_no_panic :
    ∀ ua : String,
      parseChecked ua = some (parse ua) ∧
      parse "" = { os := OperatingSystem.Unknown, browser := Browser.Unknown,
                   device_type := DeviceType.Unknown } := by
  intro ua
  refine ⟨?_, by decide⟩
  unfold parseChecked
  rw [phaseChecked_eq, phaseChecked_eq, phaseChecked_eq]
  rfl

end AgentParser

namespace AgentParser

/-- C1 counterexample: on `"nokiabrowser chrome"` the specific browser
pattern matches (`"nokiabrowser"`, which the table maps to `Unknown`), yet
detection does not stop there: the generic group is consulted and the
result is `Chrome`, not `Unknown`. -/
theorem browser_unknown_gap_counterexample :
    findTok browserSpecTokens "nokiabrowser chrome" = some "nokiabrowser" ∧
    browserTable "nokiabrowser" = Browser.Unknown ∧
    (parse "nokiabrowser chrome").browser = Browser.Chrome ∧
    Browser.Chrome ≠ Browser.Unknown := by
  refine ⟨by decide, by decide, by decide, by decide⟩

/-- C1 amended: when the specific browser pattern matches but the matched
token maps to `Unknown` through the table gap, the browser detector does
not stop — it falls through and consults the generic group (the stop is on
a non-`Unknown` label, not on a string match). -/
theorem browser_unknown_gap_falls_through :
    ∀ (ua t : String), findTok browserSpecTokens ua = some t →
      browserTable t = Browser.Unknown →
      (parse ua).browser =
        match findTok browserGenTokens ua with
        | some g => browserTable g
        | none => Browser.Unknown := by
  intro ua t hspec hunk
  show browserDetect ua = _
  unfold browserDetect
  rw [phase_eq, hspec]
  simp [hunk]

/-- C1 amended, witness at `"nokiabrowser chrome"`. -/
theorem browser_unknown_gap_falls_through_witness :
    findTok browserSpecTokens "nokiabrowser chrome" = some "nokiabrowser" ∧
    browserTable "nokiabrowser" = Browser.Unknown ∧
    (parse "nokiabrowser chrome").browser =
      match findTok browserGenTokens "nokiabrowser chrome" with
      | some g => browserTable g
      | none => Browser.Unknown :=
  ⟨by decide, by decide,
    browser_unknown_gap_falls_through "nokiabrowser chrome" "nokiabrowser"
      (by decide) (by decide)⟩


end AgentParser

namespace AgentParser

/-- C6: all token-group matching is case-insensitive — two inputs equal up
to ASCII case folding get the same OS, the same browser, and the same
device token-group result; only the case-sensitive Desktop fallback can
make the final `device_type` of the two runs differ. -/
theorem case_insensitive_matching :
    ∀ s t : String, foldStr s = foldStr t →
      (parse s).os = (parse t).os ∧
      (parse s).browser = (parse t).browser ∧
      deviceGroups s = deviceGroups t ∧
      ((parse s).device_type = (parse t).device_type ∨
        desktopFallback s ≠ desktopFallback t) := by
  intro s t h
  have hf : ∀ toks : List String, findTok toks s = findTok toks t :=
    fun _ => findTok_congr h
  have hos : osDetect s = osDetect t := by
    unfold osDetect phase
    rw [hf osSpecTokens, hf osGenTokens]
  have hbr : browserDetect s = browserDetect t := by
    unfold browserDetect phase
    rw [hf browserSpecTokens, hf browserGenTokens]
  have hdev : deviceGroups s = deviceGroups t := by
    unfold deviceGroups phase
    rw [hf deviceSpecTokens, hf deviceGenTokens]
  refine ⟨hos, hbr, hdev, ?_⟩
  by_cases hfb : desktopFallback s = desktopFallback t
  · left
    show deviceDetect s = deviceDetect t
    unfold deviceDetect
    rw [hdev, hfb]
  · right
    exact hfb

/-- C6 witness at a mixed-case and a lower-case spelling of the same
string. -/
theorem case_insensitive_matching_witness :
    foldStr "ChRoMe On WiNdOwS" = foldStr "chrome on windows" ∧
    ((parse "ChRoMe On WiNdOwS").os = (parse "chrome on windows").os ∧
      (parse "ChRoMe On WiNdOwS").browser =
        (parse "chrome on windows").browser ∧
      deviceGroups "ChRoMe On WiNdOwS" = deviceGroups "chrome on windows" ∧
      ((parse "ChRoMe On WiNdOwS").device_type =
          (parse "chrome on windows").device_type ∨
        desktopFallback "ChRoMe On WiNdOwS" ≠
          desktopFallback "chrome on windows")) :=
  ⟨by decide, case_insensitive_matching "ChRoMe On WiNdOwS"
    "chrome on windows" (by decide)⟩

/-- C3 counterexample: within a group the listed order does not decide
between tokens occurring at different positions — `"ubuntu android"`
contains both `"ubuntu"` and the earlier-listed `"android"`, yet yields
`Ubuntu`; `"linux and windows"` contains both generic tokens and no
specific one, yet yields `Linux`, not the earlier-listed `"windows"`. -/
theorem listed_order_counterexample :
    containsFold "ubuntu" "ubuntu android" = true ∧
    containsFold "android" "ubuntu android" = true ∧
    (parse "ubuntu android").os = OperatingSystem.Ubuntu ∧
    OperatingSystem.Ubuntu ≠ OperatingSystem.Android ∧
    containsFold "windows" "linux and windows" = true ∧
    containsFold "linux" "linux and windows" = true ∧
    findTok osSpecTokens "linux and windows" = none ∧
    (parse "linux and windows").os = OperatingSystem.Linux ∧
    OperatingSystem.Linux ≠ OperatingSystem.Windows := by
  refine ⟨by decide, by decide, by decide, by decide, by decide, by decide,
    by decide, by decide, by decide⟩

/-- C3 amended: matching within a group is leftmost-occurrence-first, not
listed-order-first: the scan returns the token found at the smallest start
position where any token of the group matches, the listed order breaking
ties only among tokens matching at that same position; consequently
`"ubuntu android"` yields `Ubuntu` and `"linux and windows"` yields
`Linux`. -/
theorem leftmost_first_semantics :
    (∀ (toks : List String) (cs : List Nat) (t : String),
      scanTok toks cs = some t ↔
        ∃ i, firstTok toks (List.drop i cs) = some t ∧
          ∀ j, j < i → firstTok toks (List.drop j cs) = none) ∧
    (parse "ubuntu android").os = OperatingSystem.Ubuntu ∧
    (parse "linux and windows").os = OperatingSystem.Linux := by
  refine ⟨?_, by decide, by decide⟩
  intro toks cs t
  induction cs with
  | nil =>
    constructor
    · intro h
      exact ⟨0, h, fun j hj => absurd hj (Nat.not_lt_zero j)⟩
    · rintro ⟨i, hi, -⟩
      rw [List.drop_nil] at hi
      exact hi
  | cons c cs ih =>
    constructor
    · intro h
      unfold scanTok at h
      cases hft : firstTok toks (c :: cs) with
      | some u =>
        simp only [hft] at h
        refine ⟨0, ?_, fun j hj => absurd hj (Nat.not_lt_zero j)⟩
        rw [List.drop_zero, hft]
        exact h
      | none =>
        simp only [hft] at h
        obtain ⟨i, hi, hmin⟩ := ih.mp h
        refine ⟨i + 1, hi, ?_⟩
        intro j hj
        cases j with
        | zero => exact hft
        | succ k => exact hmin k (Nat.lt_of_succ_lt_succ hj)
    · rintro ⟨i, hi, hmin⟩
      unfold scanTok
      cases i with
      | zero =>
        rw [List.drop_zero] at hi
        simp [hi]
      | succ k =>
        have h0 : firstTok toks (c :: cs) = none := hmin 0 (Nat.succ_pos k)
        simp only [h0]
        exact ih.mpr ⟨k, hi, fun j hj => hmin (j + 1) (Nat.succ_lt_succ hj)⟩

end AgentParser

namespace AgentParser

theorem tokAt_take {p q : List Nat} (h : tokAt p q = true) :
    List.take p.length q = p := by
  induction p generalizing q with
  | nil => rfl
  | cons a ps ih =>
    cases q with
    | nil => simp [tokAt] at h
    | cons b q =>
      unfold tokAt at h
      rw [Bool.and_eq_true] at h
      have hab : a = b := eq_of_beq h.1
      simp [List.take_succ_cons, ih h.2, hab]

theorem firstTokU_spec {toks : List String} {cs m : List Nat}
    (h : firstTokU toks cs = some m) :
    ∃ t ∈ toks, tokAt (rawStr t) (cs.map foldNat) = true ∧
      m = List.take (rawStr t).length cs := by
  induction toks with
  | nil => simp [firstTokU] at h
  | cons u us ih =>
    unfold firstTokU at h
    split at h
    · next hcond =>
      cases h
      exact ⟨u, List.mem_cons_self _ _, hcond, rfl⟩
    · obtain ⟨t, ht, h1, h2⟩ := ih h
      exact ⟨t, List.mem_cons_of_mem _ ht, h1, h2⟩

theorem firstTokU_sound {toks : List String} {cs m : List Nat}
    (h : firstTokU toks cs = some m) :
    ∃ t ∈ toks, List.map foldNat m = rawStr t ∧ ∀ x ∈ m, x ∈ cs := by
  obtain ⟨t, ht, h1, h2⟩ := firstTokU_spec h
  have htake := tokAt_take h1
  refine ⟨t, ht, ?_, ?_⟩
  · rw [h2, List.map_take, htake]
  · intro x hx
    rw [h2] at hx
    exact List.take_subset _ _ hx

theorem scanTokU_sound {toks : List String} {cs m : List Nat}
    (h : scanTokU toks cs = some m) :
    ∃ t ∈ toks, List.map foldNat m = rawStr t ∧ ∀ x ∈ m, x ∈ cs := by
  induction cs with
  | nil =>
    unfold scanTokU at h
    exact firstTokU_sound h
  | cons c cs ih =>
    unfold scanTokU at h
    split at h
    · next m' heq =>
      cases h
      exact firstTokU_sound heq
    · obtain ⟨t, ht, h1, h2⟩ := ih h
      exact ⟨t, ht, h1, fun x hx => List.mem_cons_of_mem _ (h2 x hx)⟩

theorem firstTokU_isSome {toks : List String} {cs : List Nat} {t : String}
    (hmem : t ∈ toks) (h : tokAt (rawStr t) (cs.map foldNat) = true) :
    ∃ m, firstTokU toks cs = some m := by
  induction toks with
  | nil => cases hmem
  | cons v vs ih =>
    by_cases hv : tokAt (rawStr v) (cs.map foldNat) = true
    · exact ⟨List.take (rawStr v).length cs, by simp [firstTokU, hv]⟩
    · rcases List.mem_cons.mp hmem with rfl | hmem'
      · exact absurd h hv
      · obtain ⟨m, hm⟩ := ih hmem'
        exact ⟨m, by simp [firstTokU, hv, hm]⟩

theorem scanTokU_isSome {toks : List String} {cs : List Nat} {t : String}
    (hmem : t ∈ toks) (h : hasTok (rawStr t) (cs.map foldNat) = true) :
    ∃ m, scanTokU toks cs = some m := by
  induction cs with
  | nil =>
    rw [List.map_nil] at h
    unfold hasTok at h
    have h' : tokAt (rawStr t) (List.map foldNat []) = true := by
      rw [List.map_nil]
      exact h
    obtain ⟨m, hm⟩ := firstTokU_isSome hmem h'
    exact ⟨m, by unfold scanTokU; exact hm⟩
  | cons c cs ih =>
    rw [List.map_cons] at h
    unfold hasTok at h
    rcases Bool.or_eq_true_iff.mp h with h1 | h2
    · have h1' : tokAt (rawStr t) (List.map foldNat (c :: cs)) = true := by
        rw [List.map_cons]
        exact h1
      obtain ⟨m, hm⟩ := firstTokU_isSome hmem h1'
      exact ⟨m, by unfold scanTokU; simp [hm]⟩
    · obtain ⟨m, hm⟩ := ih h2
      cases hft : firstTokU toks (c :: cs) with
      | some m' => exact ⟨m', by unfold scanTokU; simp [hft]⟩
      | none => exact ⟨m, by unfold scanTokU; simp [hft, hm]⟩

theorem lower_eq_fold_of_ascii {n : Nat} (h : n < 128) :
    lowerNat n = foldNat n := by
  unfold lowerNat foldNat
  have h1 : n ≠ 383 := by omega
  have h2 : n ≠ 8490 := by omega
  simp [h1, h2]

theorem lookupU_ascii {toks : List String} {ua : String} {m : List Nat}
    (hascii : (rawStr ua).all (fun n => decide (n < 128)) = true)
    (h : findMatchU toks ua = some m) :
    ∃ t ∈ toks, lookupU m = cpsToString (rawStr t) := by
  obtain ⟨t, ht, hm, hsub⟩ := scanTokU_sound h
  refine ⟨t, ht, ?_⟩
  unfold lookupU
  have hmap : m.map lowerNat = m.map foldNat := by
    apply List.map_congr_left
    intro x hx
    have hx128 : x < 128 :=
      of_decide_eq_true (List.all_eq_true.mp hascii x (hsub x hx))
    exact lower_eq_fold_of_ascii hx128
  rw [hmap, hm]

theorem phaseU_eq {α : Type} [DecidableEq α] (spec gen : List String)
    (table : String → α) (unk : α) (ua : String) :
    phaseU spec gen table unk ua =
      match findMatchU spec ua with
      | some m =>
        if table (lookupU m) = unk then
          match findMatchU gen ua with
          | some g => table (lookupU g)
          | none => unk
        else table (lookupU m)
      | none =>
        match findMatchU gen ua with
        | some g => table (lookupU g)
        | none => unk := by
  unfold phaseU
  cases h1 : findMatchU spec ua with
  | none => simp
  | some m =>
    by_cases hm : table (lookupU m) = unk
    · cases h2 : findMatchU gen ua <;> simp [hm]
    · simp [hm]

/-- C2 counterexample: `"android windows phone"` contains the specific OS
token `"windows phone"` (and the generic token `"windows"`), yet the OS
is `Android`, not `WindowsPhone` — the specific token matching at the
smallest position wins; and `"ſolaris windows phone"` also contains
`"windows phone"`, yet under Unicode simple folding the specific pattern
matches `"ſolaris"` first, whose lowercase misses the table, so the OS
falls to the generic group and is `Windows` — the claimed "never
OS = Windows" fails too. -/
theorem windows_phone_label_counterexample :
    containsFoldU "windows phone" "android windows phone" = true ∧
    (parseU "android windows phone").os = OperatingSystem.Android ∧
    OperatingSystem.Android ≠ OperatingSystem.WindowsPhone ∧
    containsFoldU "windows phone" "ſolaris windows phone" = true ∧
    (parseU "ſolaris windows phone").os = OperatingSystem.Windows := by
  refine ⟨by decide, by decide, by decide, by decide, by decide⟩

/-- C2 amended: for ASCII inputs (every code point below 128) the
specific group shields the generic one — any ASCII input containing
`"windows phone"` yields an OS that is neither `Windows` nor `Linux` nor
`Unknown`, though not necessarily `WindowsPhone`, since another specific
token may match at a smaller position; the input `"windows phone"`
itself yields `WindowsPhone`.  Outside ASCII the guarantee fails: under
Unicode simple folding a specific match can lowercase outside the table
and detection falls through to the generic group (`"ſolaris windows
phone"` yields `Windows`). -/
theorem windows_phone_ascii_guarantees :
    (∀ ua : String, (rawStr ua).all (fun n => decide (n < 128)) = true →
      containsFoldU "windows phone" ua = true →
      (parseU ua).os ≠ OperatingSystem.Windows ∧
      (parseU ua).os ≠ OperatingSystem.Linux ∧
      (parseU ua).os ≠ OperatingSystem.Unknown) ∧
    (parseU "windows phone").os = OperatingSystem.WindowsPhone ∧
    (parseU "ſolaris windows phone").os = OperatingSystem.Windows := by
  refine ⟨?_, by decide, by decide⟩
  intro ua hascii h
  have hmem0 : "windows phone" ∈ osSpecTokens := by decide
  obtain ⟨m, hm⟩ := scanTokU_isSome hmem0 h
  have hm' : findMatchU osSpecTokens ua = some m := hm
  obtain ⟨t, ht, hl⟩ := lookupU_ascii hascii hm'
  have hall : osSpecTokens.all
      (fun x => decide (osTable (cpsToString (rawStr x)) ≠ OperatingSystem.Windows ∧
        osTable (cpsToString (rawStr x)) ≠ OperatingSystem.Linux ∧
        osTable (cpsToString (rawStr x)) ≠ OperatingSystem.Unknown)) = true := by
    decide
  have hprop := of_decide_eq_true (List.all_eq_true.mp hall t ht)
  have hne : osTable (lookupU m) ≠ OperatingSystem.Unknown := by
    rw [hl]
    exact hprop.2.2
  have hres : (parseU ua).os = osTable (lookupU m) := by
    show osDetectU ua = _
    unfold osDetectU
    rw [phaseU_eq]
    simp only [hm']
    rw [if_neg hne]
  rw [hres, hl]
  exact hprop

/-- C2 amended, witness at the ASCII input `"windows phone 8"`. -/
theorem windows_phone_ascii_guarantees_witness :
    (rawStr "windows phone 8").all (fun n => decide (n < 128)) = true ∧
    containsFoldU "windows phone" "windows phone 8" = true ∧
    (parseU "windows phone 8").os ≠ OperatingSystem.Windows :=
  ⟨by decide, by decide,
    (windows_phone_ascii_guarantees.1 "windows phone 8" (by decide)
      (by decide)).1⟩

/-- C9 counterexample: the defensive matched-text-maps-to-`Unknown` case
is reachable for the OS detector — on `"ſolaris"` the specific OS
pattern matches (U+017F simple-folds to s), the matched text lowercases
to `"ſolaris"`, which misses the table, and the OS ends `Unknown`
although a pattern matched, refuting the claimed iff. -/
theorem os_unknown_iff_counterexample :
    findMatchU osSpecTokens "ſolaris" = some (rawStr "ſolaris") ∧
    osTable (lookupU (rawStr "ſolaris")) = OperatingSystem.Unknown ∧
    (parseU "ſolaris").os = OperatingSystem.Unknown ∧
    findMatchU osSpecTokens "ſolaris" ≠ none := by
  refine ⟨by decide, by decide, by decide, by decide⟩

/-- C9 amended: the OS token→category table is exhaustive over the listed
tokens of both OS alternations (each maps to a non-`Unknown`
`OperatingSystem` under the real lookup path), and for ASCII inputs —
where every matched text lowercases to its pattern token — the OS result
is `Unknown` exactly when neither OS pattern matches; outside ASCII the
pattern can match text whose lowercase misses the table (`"ſolaris"`),
so the defensive `Unknown` arm is reachable and the iff fails in
general. -/
theorem os_table_ascii_exhaustive :
    (osSpecTokens.all
      (fun t => decide (osTable (lookupU (rawStr t)) ≠
        OperatingSystem.Unknown)) = true) ∧
    (osGenTokens.all
      (fun t => decide (osTable (lookupU (rawStr t)) ≠
        OperatingSystem.Unknown)) = true) ∧
    ∀ ua : String, (rawStr ua).all (fun n => decide (n < 128)) = true →
      ((parseU ua).os = OperatingSystem.Unknown ↔
        findMatchU osSpecTokens ua = none ∧
          findMatchU osGenTokens ua = none) := by
  refine ⟨by decide, by decide, ?_⟩
  intro ua hascii
  have hallSpec : osSpecTokens.all
      (fun x => decide (osTable (cpsToString (rawStr x)) ≠
        OperatingSystem.Unknown)) = true := by decide
  have hallGen : osGenTokens.all
      (fun x => decide (osTable (cpsToString (rawStr x)) ≠
        OperatingSystem.Unknown)) = true := by decide
  have hos : (parseU ua).os = osDetectU ua := rfl
  constructor
  · intro h
    rw [hos] at h
    unfold osDetectU at h
    rw [phaseU_eq] at h
    cases hs : findMatchU osSpecTokens ua with
    | some m =>
      exfalso
      obtain ⟨t, ht, hl⟩ := lookupU_ascii hascii hs
      have hne : osTable (lookupU m) ≠ OperatingSystem.Unknown := by
        rw [hl]
        exact of_decide_eq_true (List.all_eq_true.mp hallSpec t ht)
      simp only [hs] at h
      rw [if_neg hne] at h
      exact hne h
    | none =>
      simp only [hs] at h
      cases hg : findMatchU osGenTokens ua with
      | some m =>
        exfalso
        obtain ⟨t, ht, hl⟩ := lookupU_ascii hascii hg
        simp only [hg] at h
        have hne : osTable (lookupU m) ≠ OperatingSystem.Unknown := by
          rw [hl]
          exact of_decide_eq_true (List.all_eq_true.mp hallGen t ht)
        exact hne h
      | none => exact ⟨rfl, rfl⟩
  · rintro ⟨hs, hg⟩
    rw [hos]
    unfold osDetectU
    rw [phaseU_eq, hs, hg]

/-- C9 amended, witness at the ASCII input `"plain text"`, where both OS
patterns fail to match and the OS is `Unknown`. -/
theorem os_table_ascii_exhaustive_witness :
    (rawStr "plain text").all (fun n => decide (n < 128)) = true ∧
    ((parseU "plain text").os = OperatingSystem.Unknown ↔
      findMatchU osSpecTokens "plain text" = none ∧
        findMatchU osGenTokens "plain text" = none) :=
  ⟨by decide, os_table_ascii_exhaustive.2.2 "plain text" (by decide)⟩

end AgentParser
